import Mathlib

/-!
Verification of the granule-discovery and download pipeline of the
lpdaac-gedi-subsetter repository (src/lpdaac_subset_gedi.py and
src/subsetting_tools/utilities.py), as a shallow embedding in Lean 4.

Conventions of the embedding:
* Python strings are Lean `String`s; byte payloads are `List Nat`.
* Fallible Python code (code that may raise) is embedded with
  `Except String`; the error string models the exception message.
* Network and filesystem effects are passed explicitly: HTTP fetches
  become function parameters, the local filesystem becomes an explicit
  `FS` value threaded through the definitions.
* Floating-point coordinates are modelled in exact fixed point
  (micro-degrees, an `Int` scaled by 10^6); the `'{:f}'.format` of
  Python always prints six fractional digits, which the fixed-point
  formatter below reproduces exactly.
-/

/-- Model of Python `str.zfill` for non-negative digit strings: left-pad
with `'0'` to width `w` (the sign-handling of `zfill` is irrelevant here,
every call site passes a decimal representation of a `Nat`). -/
def zfill (s : String) (w : Nat) : String :=
  if w ≤ s.length then s else String.mk (List.replicate (w - s.length) '0' ++ s.data)

/-- Decimal digit characters of a natural number, most significant
first (empty for 0), computed with explicit fuel so that the function
is structurally recursive (the fuel argument strictly decreases); any
fuel at least the number itself is sufficient because `n / 10 < n` for
positive `n`. -/
def decDigitsCore : Nat → Nat → List Char
  | 0, _ => []
  | fuel + 1, n =>
    if n = 0 then [] else decDigitsCore fuel (n / 10) ++ [Char.ofNat (48 + n % 10)]

/-- Decimal digit characters of a natural number, most significant
first (empty for 0). Models the digit sequence produced by Python `str`
on a positive `int`. -/
def decDigitsAux (n : Nat) : List Char := decDigitsCore n n

/-- Model of Python `str(n)` for a non-negative integer `n`. -/
def decRepr (n : Nat) : String :=
  if n = 0 then "0" else String.mk (decDigitsAux n)

/-- Accumulator loop of decimal-string parsing. -/
def strToNatAux : Nat → List Char → Nat
  | acc, [] => acc
  | acc, c :: cs => strToNatAux (10 * acc + (c.toNat - 48)) cs

/-- Value of a string of decimal digits. -/
def strToNat (s : String) : Nat := strToNatAux 0 s.data

/-- Model of Python `int(s)` restricted to non-empty strings of decimal
digits (the version strings of this program); any other string raises
`ValueError`. The full `int()` also accepts signs and surrounding
whitespace, which no call site of this program exercises. -/
def pyInt (s : String) : Except String Nat :=
  if s.isEmpty = false ∧ s.data.all Char.isDigit = true then .ok (strToNat s)
  else .error "ValueError"

/-- While-loop body of `build_version_query` (src/lpdaac_subset_gedi.py,
lines 107-111): while `len(str(version)) <= desired_pad_length`, append a
clause `&version=` followed by `str(version).zfill(desired_pad_length)`
and decrement `desired_pad_length`. `vs` is `str(version)`; the
recursion is on the pad length, and the loop always exits before the pad
length can go negative because `vs` is non-empty. -/
def bvq_loop (vs : String) : Nat → String
  | 0 => ""
  | w + 1 =>
    if vs.length ≤ w + 1 then "&version=" ++ zfill vs (w + 1) ++ bvq_loop vs w
    else ""

/-- Model of `build_version_query(version, desired_pad_length)`
(src/lpdaac_subset_gedi.py, lines 100-112): raise when the version
string is longer than the pad length, otherwise strip leading zeros via
`int` and emit one `&version=` clause per pad width, widest first. -/
def build_version_query (version : String) (desired_pad_length : Nat) : Except String String :=
  if desired_pad_length < version.length then
    .error ("Version string too long: \"" ++ version ++ "\"")
  else
    match pyInt version with
    | .error e => .error e
    | .ok v => .ok (bvq_loop (decRepr v) desired_pad_length)

/-- Descending range of naturals `[hi, hi-1, ..., lo]` (empty when
`hi < lo`); used only to state which pad widths the version-query loop
visits. -/
def descRange (hi lo : Nat) : List Nat :=
  (List.range (hi + 1 - lo)).map (fun i => hi - i)

/-- Bounding box in the user-facing argument order of the program
(`--bbox lat_min lon_min lat_max lon_max`), in exact micro-degree fixed
point. -/
structure BBox where
  lat_min : Int
  lon_min : Int
  lat_max : Int
  lon_max : Int
deriving DecidableEq

/-- Model of Python `'{0:f}'.format(x)` on an exact micro-degree value:
optional sign, integer part, `'.'`, and exactly six fractional digits. -/
def formatF (micro : Int) : String :=
  (if micro < 0 then "-" else "") ++ decRepr (micro.natAbs / 1000000) ++ "." ++
    zfill (decRepr (micro.natAbs % 1000000)) 6

/-- Model of `bounds_flag = '{1:f},{0:f},{3:f},{2:f}'.format(*BBOX)`
(src/lpdaac_subset_gedi.py, line 147): the four coordinates re-ordered
lon-first for the CMR API. -/
def bounds_flag (b : BBox) : String :=
  formatF b.lon_min ++ "," ++ formatF b.lat_min ++ "," ++
    formatF b.lon_max ++ "," ++ formatF b.lat_max

/-- Model of `spatial_flag = '&bounding_box={0}'.format(bounds_flag)`
(src/lpdaac_subset_gedi.py, line 148). -/
def spatial_flag (b : BBox) : String := "&bounding_box=" ++ bounds_flag b

/-- Coordinate re-ordering applied by the program when emitting the
query clause: user order (lat_min, lon_min, lat_max, lon_max) to
protocol order (lon_min, lat_min, lon_max, lat_max). -/
def bboxToQueryOrder (b : BBox) : Int × Int × Int × Int :=
  (b.lon_min, b.lat_min, b.lon_max, b.lat_max)

/-- Inverse coordinate re-ordering, taking the emitted clause order back
to the user-facing order. -/
def queryOrderToBBox : Int × Int × Int × Int → BBox
  | (a, b, c, d) => ⟨b, a, d, c⟩

/-- Concatenation of one version clause per pad width in `ws`: the shape
of string the version-query loop builds. -/
def concatClauses (vs : String) (ws : List Nat) : String :=
  ws.foldr (fun w acc => "&version=" ++ zfill vs w ++ acc) ""

lemma strToNatAux_lt (cs : List Char) (acc : Nat) (h : cs.all Char.isDigit = true) :
    strToNatAux acc cs < (acc + 1) * 10 ^ cs.length := by
  induction cs generalizing acc with
  | nil =>
    show acc < (acc + 1) * 10 ^ ([] : List Char).length
    simp
  | cons c cs ih =>
    simp only [List.all_cons, Bool.and_eq_true] at h
    have hc : c.toNat - 48 ≤ 9 := by
      have h9 : c ≤ '9' := by
        have := h.1
        simp [Char.isDigit] at this
        exact this.2
      have h57 : c.toNat ≤ 57 := h9
      omega
    calc strToNatAux acc (c :: cs) = strToNatAux (10 * acc + (c.toNat - 48)) cs := rfl
      _ < (10 * acc + (c.toNat - 48) + 1) * 10 ^ cs.length := ih _ h.2
      _ ≤ ((acc + 1) * 10) * 10 ^ cs.length := by
          apply Nat.mul_le_mul_right
          omega
      _ = (acc + 1) * 10 ^ (c :: cs).length := by
          rw [List.length_cons, pow_succ]
          ring

lemma strToNat_lt (s : String) (h : s.data.all Char.isDigit = true) :
    strToNat s < 10 ^ s.length := by
  show strToNatAux 0 s.data < 10 ^ s.data.length
  simpa using strToNatAux_lt s.data 0 h

lemma decDigitsCore_length_le :
    ∀ (fuel n k : Nat), n ≤ fuel → n < 10 ^ k → (decDigitsCore fuel n).length ≤ k := by
  intro fuel
  induction fuel with
  | zero => intro n k _ _; simp [decDigitsCore]
  | succ fuel ih =>
    intro n k hfuel hk
    by_cases hn : n = 0
    · simp [decDigitsCore, hn]
    · have hk0 : k ≠ 0 := by
        intro h0
        rw [h0, pow_zero] at hk
        omega
      obtain ⟨j, rfl⟩ : ∃ j, k = j + 1 := ⟨k - 1, by omega⟩
      have hdiv : n / 10 ≤ fuel := by
        have : n / 10 < n := Nat.div_lt_self (by omega) (by norm_num)
        omega
      have hdivk : n / 10 < 10 ^ j := by
        rw [Nat.div_lt_iff_lt_mul (by norm_num : (0:Nat) < 10)]
        calc n < 10 ^ (j + 1) := hk
          _ = 10 ^ j * 10 := by rw [pow_succ]
      simp only [decDigitsCore, if_neg hn, List.length_append, List.length_singleton]
      have := ih (n / 10) j hdiv hdivk
      omega

lemma decDigitsCore_ne_nil (fuel n : Nat) (h1 : 1 ≤ n) (h2 : n ≤ fuel) :
    decDigitsCore fuel n ≠ [] := by
  obtain ⟨f, rfl⟩ : ∃ f, fuel = f + 1 := ⟨fuel - 1, by omega⟩
  have hn : n ≠ 0 := by omega
  simp [decDigitsCore, hn]

lemma decRepr_length_pos (n : Nat) : 1 ≤ (decRepr n).length := by
  by_cases hn : n = 0
  · simp [decRepr, hn]
    decide
  · have := decDigitsCore_ne_nil n n (by omega) le_rfl
    simp only [decRepr, if_neg hn, decDigitsAux, String.length]
    exact List.length_pos.mpr this

lemma decRepr_length_le (n k : Nat) (hk : 1 ≤ k) (h : n < 10 ^ k) :
    (decRepr n).length ≤ k := by
  by_cases hn : n = 0
  · simpa [decRepr, hn] using hk
  · simpa [decRepr, if_neg hn, decDigitsAux, String.length] using
      decDigitsCore_length_le n n k le_rfl h

/-- C7. For every non-empty decimal version string of length at most 3,
`build_version_query` succeeds and returns the concatenation of one
`&version=` clause per padding width from 3 down to the digit count `d`
of the version's integer value after stripping leading zeros (so `4 - d`
clauses, each clause carrying the value left-zero-padded to its width);
for every version string longer than 3 characters it raises and emits no
clauses. -/
theorem C7_version_query (version : String)
    (hne : version.isEmpty = false) (hdig : version.data.all Char.isDigit = true) :
    (version.length ≤ 3 →
      build_version_query version 3 =
        .ok (concatClauses (decRepr (strToNat version))
          (descRange 3 (decRepr (strToNat version)).length)) ∧
      (descRange 3 (decRepr (strToNat version)).length).length
        = 4 - (decRepr (strToNat version)).length) ∧
    (3 < version.length →
      build_version_query version 3 =
        .error ("Version string too long: \"" ++ version ++ "\"")) := by
  constructor
  · intro hlen
    have hv : strToNat version < 1000 := by
      have h1 := strToNat_lt version hdig
      have h2 : (10:Nat) ^ version.length ≤ 10 ^ 3 :=
        Nat.pow_le_pow_right (by norm_num) hlen
      calc strToNat version < 10 ^ version.length := h1
        _ ≤ 10 ^ 3 := h2
        _ = 1000 := by norm_num
    have hd1 : 1 ≤ (decRepr (strToNat version)).length := decRepr_length_pos _
    have hd3 : (decRepr (strToNat version)).length ≤ 3 :=
      decRepr_length_le _ 3 (by omega) (by simpa using hv)
    have hnot : ¬ 3 < version.length := by omega
    have hbvq : build_version_query version 3
        = .ok (bvq_loop (decRepr (strToNat version)) 3) := by
      simp [build_version_query, pyInt, hne, hdig, hnot]
    refine ⟨?_, ?_⟩
    · rw [hbvq]
      congr 1
      have : (decRepr (strToNat version)).length = 1 ∨
          (decRepr (strToNat version)).length = 2 ∨
          (decRepr (strToNat version)).length = 3 := by omega
      rcases this with h | h | h <;>
        simp [bvq_loop, concatClauses, descRange, h, List.range_succ]
    · simp [descRange]
  · intro hlen
    simp [build_version_query, hlen]

/-- C7 witness: the version string `"002"` yields exactly the three
clauses `&version=002&version=02&version=2`, and the four-character
string `"0021"` raises. -/
theorem C7_version_query_witness :
    build_version_query "002" 3 = .ok "&version=002&version=02&version=2" ∧
    build_version_query "0021" 3
      = .error "Version string too long: \"0021\"" := by
  constructor
  · have h := ((C7_version_query "002" (by decide) (by decide)).1 (by decide)).1
    rw [h]
    rfl
  · exact (C7_version_query "0021" (by decide) (by decide)).2 (by decide)

/-- C6. For every bounding box in user-facing order (lat_min, lon_min,
lat_max, lon_max), the emitted spatial flag is the query joiner `&`
followed by the clause `bounding_box=lon_min,lat_min,lon_max,lat_max`
with each coordinate formatted to six decimal places; the inverse
coordinate re-ordering applied to the emitted order reconstructs the
original box; and the box (40.0, -100.0, 42.0, -96.0) yields exactly
`bounding_box=-100.000000,40.000000,-96.000000,42.000000`. -/
theorem C6_bounding_box (b : BBox) :
    spatial_flag b = "&" ++ ("bounding_box=" ++ formatF b.lon_min ++ "," ++
      formatF b.lat_min ++ "," ++ formatF b.lon_max ++ "," ++ formatF b.lat_max) ∧
    queryOrderToBBox (bboxToQueryOrder b) = b ∧
    spatial_flag ⟨40000000, -100000000, 42000000, -96000000⟩
      = "&" ++ "bounding_box=-100.000000,40.000000,-96.000000,42.000000" := by
  refine ⟨?_, rfl, by decide⟩
  apply String.ext
  simp [spatial_flag, bounds_flag, String.data_append, List.append_assoc]

/-- A typed link of one CMR catalog entry; `type` is `none` when the
JSON link object has no `type` key. -/
structure Link where
  type : Option String
  href : String
deriving DecidableEq

/-- One entry of a CMR response page: its list of links. -/
structure Entry where
  links : List Link
deriving DecidableEq

/-- A parsed CMR JSON response body; `feedEntry` is `none` when the
document lacks the `feed` key or the `feed.entry` key. -/
structure SearchPage where
  feedEntry : Option (List Entry)
deriving DecidableEq

/-- Model of `cmr_filter_json(search_page, form)`
(src/lpdaac_subset_gedi.py, lines 115-127): collect, in entry order, the
`href` of every link whose `type` key is present and equals `form`;
an absent `feed`/`entry` key yields the empty list. -/
def cmr_filter_json (search_page : SearchPage) (form : String) : List String :=
  match search_page.feedEntry with
  | none => []
  | some entries =>
    (entries.map (fun e => (e.links.filter (fun l => l.type == some form)).map Link.href)).flatten

/-- MIME type of the desired data files, the default `form` argument of
`cmr_filter_json`. -/
def hdfeosForm : String := "application/x-hdfeos"

/-- One mocked catalog response: the `cmr-scroll-id` and `cmr-hits`
headers (the code reads both only from the first response) and the
parsed JSON body. -/
structure CatalogResponse where
  scroll_id : String
  hits : Nat
  page : SearchPage
deriving DecidableEq

/-- Placeholder response used only as the default of `List.getD`. -/
def noResponse : CatalogResponse := ⟨"", 0, ⟨none⟩⟩

/-- Observable outcome of the scroll-paged search loop: the accumulated
granule URLs, the number of HTTP page requests issued, and the
`cmr-scroll-id` header value attached to each request in order (`none`
when no header was attached). -/
structure SearchResult where
  granules : List String
  requests : Nat
  sentTokens : List (Option String)
deriving DecidableEq

/-- Model of the `while True` scroll loop of `lpdaac_subset_gedi`
(src/lpdaac_subset_gedi.py, lines 196-219), one iteration per catalog
response: attach the current scroll id (if any) to the request; after
the first response, latch its `cmr-scroll-id` (the `cmr-hits` header is
also read there but never used afterwards); filter the page with
`cmr_filter_json`; break when the filtered list is empty, else extend
`granules` and continue. The list argument supplies the successive
responses of the mocked catalog; if it is exhausted the accumulated
state is returned as is (the loop would block on the next request). -/
def cmr_search_loop :
    List CatalogResponse → Option String → List String → Nat → List (Option String) → SearchResult
  | [], _, granules, requests, tokens => ⟨granules, requests, tokens⟩
  | r :: rest, scroll, granules, requests, tokens =>
    let tokens' := tokens ++ [scroll]
    let scroll' : Option String := some (scroll.getD r.scroll_id)
    let url_scroll_results := cmr_filter_json r.page hdfeosForm
    if url_scroll_results.isEmpty then ⟨granules, requests + 1, tokens'⟩
    else cmr_search_loop rest scroll' (granules ++ url_scroll_results) (requests + 1) tokens'

/-- The scroll-paged search of `lpdaac_subset_gedi`, started with no
scroll id, no granules, no issued requests. -/
def cmr_search (responses : List CatalogResponse) : SearchResult :=
  cmr_search_loop responses none [] 0 []

/-- Modelled from the spec: the stopping discipline the claim asserts
for scroll paging — stop when a round returns zero results after
link-type filtering OR when the accumulated granule count reaches the
total-hit count advertised by the first response. Stated only to be
compared against `cmr_search`, which is translated from the source;
returns (granules, requests). -/
def cmr_search_claimed_loop :
    List CatalogResponse → Option String → Option Nat → List String → Nat → List String × Nat
  | [], _, _, granules, requests => (granules, requests)
  | r :: rest, scroll, knownHits, granules, requests =>
    let hits := knownHits.getD r.hits
    let urls := cmr_filter_json r.page hdfeosForm
    if urls.isEmpty then (granules, requests + 1)
    else
      let granules' := granules ++ urls
      if hits ≤ granules'.length then (granules', requests + 1)
      else cmr_search_claimed_loop rest (some (scroll.getD r.scroll_id)) (some hits)
        granules' (requests + 1)

/-- Entry point of the spec-claimed stopping discipline. -/
def cmr_search_claimed (responses : List CatalogResponse) : List String × Nat :=
  cmr_search_claimed_loop responses none none [] 0

lemma cmr_search_loop_stop (r : CatalogResponse) (rest : List CatalogResponse)
    (scroll : Option String) (gs : List String) (n : Nat) (toks : List (Option String))
    (h : (cmr_filter_json r.page hdfeosForm).isEmpty = true) :
    cmr_search_loop (r :: rest) scroll gs n toks = ⟨gs, n + 1, toks ++ [scroll]⟩ := by
  simp [cmr_search_loop, h]

lemma cmr_search_loop_continue (r : CatalogResponse) (rest : List CatalogResponse)
    (scroll : Option String) (gs : List String) (n : Nat) (toks : List (Option String))
    (h : (cmr_filter_json r.page hdfeosForm).isEmpty = false) :
    cmr_search_loop (r :: rest) scroll gs n toks =
      cmr_search_loop rest (some (scroll.getD r.scroll_id))
        (gs ++ cmr_filter_json r.page hdfeosForm) (n + 1) (toks ++ [scroll]) := by
  simp [cmr_search_loop, h]

lemma cmr_search_loop_some (sid : String) :
    ∀ (rest : List CatalogResponse) (j : Nat) (gs : List String) (n : Nat)
      (toks : List (Option String)),
    j < rest.length →
    (∀ i, i < j → (cmr_filter_json (rest.getD i noResponse).page hdfeosForm).isEmpty = false) →
    (cmr_filter_json (rest.getD j noResponse).page hdfeosForm).isEmpty = true →
    cmr_search_loop rest (some sid) gs n toks =
      ⟨gs ++ ((rest.take j).map (fun r => cmr_filter_json r.page hdfeosForm)).flatten,
       n + j + 1, toks ++ List.replicate (j + 1) (some sid)⟩ := by
  intro rest
  induction rest with
  | nil => intro j _ _ _ hj _ _; simp at hj
  | cons r rest ih =>
    intro j gs n toks hj hpre hstop
    cases j with
    | zero =>
      simp only [List.getD_cons_zero] at hstop
      simp [cmr_search_loop_stop r rest _ gs n toks hstop]
    | succ j =>
      have h0 : (cmr_filter_json r.page hdfeosForm).isEmpty = false := by
        have := hpre 0 (Nat.succ_pos j)
        simpa using this
      rw [cmr_search_loop_continue r rest _ gs n toks h0]
      simp only [Option.getD_some]
      rw [ih j _ _ _ (by simpa using hj)
        (fun i hi => by simpa using hpre (i + 1) (by omega))
        (by simpa using hstop)]
      simp only [List.take_succ_cons, List.map_cons, List.flatten_cons, List.append_assoc,
        List.replicate_succ, List.singleton_append, SearchResult.mk.injEq]
      exact ⟨trivial, by omega, trivial⟩

/-- C1 (amended). For every sequence of catalog responses whose first
`k` pages each yield at least one data-file URL after link-type
filtering and whose page `k` yields none, the scroll search issues
exactly one HTTP request per page (`k + 1` in total), attaches no
scroll header to the first request and echoes the first response's
`cmr-scroll-id` on every subsequent request, accumulates exactly the
concatenated filtered URLs of the first `k` pages, and stops at page
`k` — the zero-result round is the only stopping condition (the
advertised `cmr-hits` total is read but never used to stop). -/
theorem C1_scroll_paging (responses : List CatalogResponse) (k : Nat)
    (hk : k < responses.length)
    (hpre : ∀ i, i < k →
      (cmr_filter_json (responses.getD i noResponse).page hdfeosForm).isEmpty = false)
    (hstop : (cmr_filter_json (responses.getD k noResponse).page hdfeosForm).isEmpty = true) :
    cmr_search responses =
      ⟨((responses.take k).map (fun r => cmr_filter_json r.page hdfeosForm)).flatten,
       k + 1,
       none :: List.replicate k (some ((responses.getD 0 noResponse).scroll_id))⟩ := by
  obtain ⟨r, rest, rfl⟩ : ∃ r rest, responses = r :: rest := by
    cases responses with
    | nil => simp at hk
    | cons r rest => exact ⟨r, rest, rfl⟩
  cases k with
  | zero =>
    simp only [List.getD_cons_zero] at hstop
    simp [cmr_search, cmr_search_loop_stop r rest none [] 0 [] hstop]
  | succ j =>
    have h0 : (cmr_filter_json r.page hdfeosForm).isEmpty = false := by
      have := hpre 0 (Nat.succ_pos j)
      simpa using this
    unfold cmr_search
    rw [cmr_search_loop_continue r rest none [] 0 [] h0]
    simp only [Option.getD_none, List.nil_append]
    rw [cmr_search_loop_some r.scroll_id rest j _ _ _ (by simpa using hk)
      (fun i hi => by simpa using hpre (i + 1) (by omega))
      (by simpa using hstop)]
    simp only [List.take_succ_cons, List.map_cons, List.flatten_cons, List.getD_cons_zero,
      List.replicate_succ, List.nil_append, List.singleton_append, SearchResult.mk.injEq]
    exact ⟨trivial, by omega, trivial⟩

/-- One mocked catalog entry carrying a single link of the target MIME
type. -/
def mockEntry : Entry :=
  ⟨[⟨some "application/x-hdfeos", "https://e4ftl01.cr.usgs.gov/GEDI/GEDI02_A.002/g.h5"⟩]⟩

/-- A mocked response page with `n` entries, every entry carrying a
link of the target type. -/
def mockResponse (n : Nat) : CatalogResponse :=
  ⟨"scroll-token-0", 303, ⟨some (List.replicate n mockEntry)⟩⟩

/-- The mocked catalog of the claim: pages of sizes
[page_size, page_size, page_size, 3, 0] with page_size = 100. -/
def mockCatalog : List CatalogResponse :=
  [mockResponse 100, mockResponse 100, mockResponse 100, mockResponse 3, mockResponse 0]

set_option maxRecDepth 40000 in
/-- C1 witness: on the mocked catalog of page sizes [100, 100, 100, 3, 0]
the search returns exactly 3*100 + 3 granules, issues exactly 5 page
requests, and sends the first response's scroll token on requests 2-5. -/
theorem C1_scroll_paging_witness :
    (cmr_search mockCatalog).granules.length = 303 ∧
    (cmr_search mockCatalog).requests = 5 ∧
    (cmr_search mockCatalog).sentTokens =
      none :: List.replicate 4 (some "scroll-token-0") := by
  have h := C1_scroll_paging mockCatalog 4 (by decide) (by decide) (by decide)
  rw [h]
  refine ⟨by decide, rfl, rfl⟩

/-- Catalog on which the code's stopping rule and the claim's stopping
rule disagree: the first response advertises a total-hit count of 1, but
pages keep coming back non-empty after the accumulated count reaches 1. -/
def overrunCatalog : List CatalogResponse :=
  [⟨"tok", 1, ⟨some [⟨[⟨some "application/x-hdfeos", "u1"⟩]⟩]⟩⟩,
   ⟨"tok", 1, ⟨some [⟨[⟨some "application/x-hdfeos", "u2"⟩]⟩]⟩⟩,
   ⟨"tok", 1, ⟨some []⟩⟩]

/-- C1 counterexample: the claim says the loop stops when a round
returns zero filtered URLs OR when the accumulated granule count
reaches the advertised total-hit count (the discipline of
`cmr_search_claimed`). On `overrunCatalog` the accumulated count
reaches the advertised total (1) after the first round, yet the code
issues 3 requests and accumulates 2 granules, while the claimed
discipline stops after 1 request with 1 granule — the `cmr-hits` header
is read into a variable that is never used as a stopping condition. -/
theorem C1_counterexample :
    ¬ ((cmr_search overrunCatalog).granules = (cmr_search_claimed overrunCatalog).1 ∧
       (cmr_search overrunCatalog).requests = (cmr_search_claimed overrunCatalog).2) := by
  decide

lemma cmr_search_loop_granules :
    ∀ (rs : List CatalogResponse) (scroll : Option String) (gs : List String) (n : Nat)
      (toks : List (Option String)),
    (cmr_search_loop rs scroll gs n toks).granules =
      gs ++ ((rs.takeWhile (fun r => !(cmr_filter_json r.page hdfeosForm).isEmpty)).map
        (fun r => cmr_filter_json r.page hdfeosForm)).flatten := by
  intro rs
  induction rs with
  | nil => intro scroll gs n toks; simp [cmr_search_loop]
  | cons r rest ih =>
    intro scroll gs n toks
    by_cases h : (cmr_filter_json r.page hdfeosForm).isEmpty
    · rw [cmr_search_loop_stop r rest scroll gs n toks h]
      simp [List.takeWhile_cons, h]
    · rw [cmr_search_loop_continue r rest scroll gs n toks (by simpa using h)]
      rw [ih]
      simp [List.takeWhile_cons, h, List.append_assoc]

/-- C3 (amended). The granule list accumulated by the search loop is
exactly the in-order concatenation of each consumed page's filtered
data-file URLs — the loop extends the list with no deduplication, so a
URL appearing on more than one page appears more than once in the
result. -/
theorem C3_accumulation (responses : List CatalogResponse) :
    (cmr_search responses).granules =
      ((responses.takeWhile (fun r => !(cmr_filter_json r.page hdfeosForm).isEmpty)).map
        (fun r => cmr_filter_json r.page hdfeosForm)).flatten := by
  simpa using cmr_search_loop_granules responses none [] 0 []

/-- Catalog whose two pages carry the same granule URL. -/
def dupCatalog : List CatalogResponse :=
  [⟨"tok", 2, ⟨some [⟨[⟨some "application/x-hdfeos", "https://host/a/dup.h5"⟩]⟩]⟩⟩,
   ⟨"tok", 2, ⟨some [⟨[⟨some "application/x-hdfeos", "https://host/a/dup.h5"⟩]⟩]⟩⟩,
   ⟨"tok", 2, ⟨some []⟩⟩]

/-- C3 counterexample: when the same granule URL appears on two pages,
the accumulated list holds it twice — the list has duplicate entries
after the second iteration, refuting the claimed deduplication. -/
theorem C3_counterexample :
    (cmr_search dupCatalog).granules = ["https://host/a/dup.h5", "https://host/a/dup.h5"] ∧
    ¬ (cmr_search dupCatalog).granules.Nodup := by
  decide

deriving instance DecidableEq for Except

/-- Status of one granule processed by the serial sync loop: skipped
because the checksums matched, or downloaded with the transfer
description returned by `from_lpdaac`. -/
inductive GranStatus where
  | skipped
  | downloaded (out : String)
deriving DecidableEq

/-- Abstract outcome of the two per-granule calls made by the sync
loops of src/lpdaac_subset_gedi.py: `checksum` is the result of
`compare_checksums(granule + '.xml', local_file)` (`ok` with the
comparison result, or `error` when the descriptor fetch raises) and
`download` is the result of `from_lpdaac(granule, local_file, ...)`
(`ok` with the transfer-description string, or `error` when the body
download raises). The claims about the orchestrator concern only its
control flow around these two calls, so their outcomes are the
environment of the model. -/
structure GranuleBehavior where
  checksum : Except String Bool
  download : Except String String
deriving DecidableEq

/-- Model of the serial branch of `lpdaac_subset_gedi` (PROCESSES = 0,
src/lpdaac_subset_gedi.py, lines 224-237): for each granule in order,
call `compare_checksums`; when it returns False, call `from_lpdaac`.
Neither call is wrapped in try/except, so an exception from either call
propagates and ends the loop: the model returns the statuses of the
granules processed before the exception together with the propagated
error (`none` when the loop completes). -/
def serial_sync : List GranuleBehavior → List GranStatus × Option String
  | [] => ([], none)
  | b :: rest =>
    match b.checksum with
    | .error e => ([], some e)
    | .ok true =>
      let r := serial_sync rest
      (.skipped :: r.1, r.2)
    | .ok false =>
      match b.download with
      | .error e => ([], some e)
      | .ok out =>
        let r := serial_sync rest
        (.downloaded out :: r.1, r.2)

/-- The status one granule would get if processed: `none` when either
per-granule call raises. -/
def procStep (b : GranuleBehavior) : Option GranStatus :=
  match b.checksum with
  | .error _ => none
  | .ok true => some .skipped
  | .ok false =>
    match b.download with
    | .error _ => none
    | .ok out => some (.downloaded out)

/-- Model of `multiprocess_sync(remote_file, local_file, MODE)`
(src/lpdaac_subset_gedi.py, lines 263-276): inside a worker, call
`compare_checksums` (NOT wrapped in try/except — an exception here
escapes the worker and is re-raised by the pool at `.get()`, modelled
as `.error`); when it returns False, call `from_lpdaac` wrapped in
try/except — a download exception is caught and logged and the function
falls through returning None, as it also does when the checksums match;
on success it returns the transfer description. -/
def multiprocess_sync (b : GranuleBehavior) : Except String (Option String) :=
  match b.checksum with
  | .error e => .error e
  | .ok true => .ok none
  | .ok false =>
    match b.download with
    | .error _ => .ok none
    | .ok out => .ok (some out)

/-- Model of the parallel branch of `lpdaac_subset_gedi`
(src/lpdaac_subset_gedi.py, lines 238-260): every granule is submitted
to the pool with `apply_async` before `pool.close()`/`pool.join()`, so
every submitted unit runs to completion independently; the observable
per-unit results, in submission order, are the `multiprocess_sync`
outcomes. -/
def parallel_sync (gs : List GranuleBehavior) : List (Except String (Option String)) :=
  gs.map multiprocess_sync

lemma serial_sync_cons_proc (b : GranuleBehavior) (rest : List GranuleBehavior)
    (st : GranStatus) (h : procStep b = some st) :
    serial_sync (b :: rest) = (st :: (serial_sync rest).1, (serial_sync rest).2) := by
  cases hc : b.checksum with
  | error e => simp [procStep, hc] at h
  | ok v =>
    cases v with
    | true =>
      simp only [procStep, hc] at h
      injection h with h
      subst h
      simp [serial_sync, hc]
    | false =>
      cases hd : b.download with
      | error e => simp [procStep, hc, hd] at h
      | ok out =>
        simp only [procStep, hc, hd] at h
        injection h with h
        subst h
        simp [serial_sync, hc, hd]

lemma serial_sync_append (pre rest : List GranuleBehavior)
    (h : ∀ b ∈ pre, (procStep b).isSome) :
    serial_sync (pre ++ rest) =
      (pre.filterMap procStep ++ (serial_sync rest).1, (serial_sync rest).2) := by
  induction pre with
  | nil => simp
  | cons b pre ih =>
    obtain ⟨st, hst⟩ := Option.isSome_iff_exists.mp (h b (by simp))
    rw [List.cons_append, serial_sync_cons_proc b (pre ++ rest) st hst,
      ih (fun b hb => h b (by simp [hb]))]
    simp [List.filterMap_cons, hst]

/-- C2 (amended). In serial mode (PROCESSES = 0), a granule whose body
download raises ABORTS the run rather than being isolated: the granules
before it are checksum-verified and downloaded or skipped as usual, the
exception propagates out of the loop, and the granules after it are not
processed at all (no per-granule catch exists in the serial branch —
continue-on-error holds only in the parallel branch). -/
theorem C2_serial_abort (pre post : List GranuleBehavior) (g : GranuleBehavior) (e : String)
    (hpre : ∀ b ∈ pre, (procStep b).isSome)
    (hc : g.checksum = .ok false) (hd : g.download = .error e) :
    serial_sync (pre ++ g :: post) = (pre.filterMap procStep, some e) := by
  rw [serial_sync_append pre (g :: post) hpre]
  simp [serial_sync, hc, hd]

/-- Behaviour of a granule whose checksums match (download skipped). -/
def okSkip : GranuleBehavior := ⟨.ok true, .ok "unused"⟩

/-- Behaviour of a granule that is downloaded successfully. -/
def okDown : GranuleBehavior :=
  ⟨.ok false, .ok "https://host/p/f1.h5 -->\n\t/data/p/f1.h5\n"⟩

/-- Behaviour of a granule whose body download raises. -/
def failDown : GranuleBehavior :=
  ⟨.ok false, .error "Download error from https://host/p/f2.h5"⟩

/-- Behaviour of a granule whose checksum-descriptor fetch raises. -/
def failChk : GranuleBehavior :=
  ⟨.error "XML download error: https://host/p/f3.h5.xml", .ok "x"⟩

/-- C2 witness: with two healthy granules before a failing download and
one after it, the serial loop processes exactly the first two and
propagates the download error. -/
theorem C2_serial_abort_witness :
    serial_sync [okSkip, okDown, failDown, okDown] =
      ([GranStatus.skipped, GranStatus.downloaded "https://host/p/f1.h5 -->\n\t/data/p/f1.h5\n"],
       some "Download error from https://host/p/f2.h5") := by
  have h := C2_serial_abort [okSkip, okDown] [okDown] failDown
    "Download error from https://host/p/f2.h5" (by decide) (by decide) (by decide)
  exact h.trans (by decide)

/-- C2 counterexample: for N = 3 granules where granule 1's download
raises, the claim predicts the remaining 2 granules are still processed
and exactly one unit is reported failed; the code processes 0 of the
remaining granules — the exception propagates and the loop ends with an
empty result prefix. -/
theorem C2_counterexample :
    serial_sync [failDown, okDown, okSkip] =
      ([], some "Download error from https://host/p/f2.h5") ∧
    (serial_sync [failDown, okDown, okSkip]).1.length ≠ 2 := by
  decide

/-- C4 (amended). A failing checksum-descriptor fetch does not abort
sibling units in PARALLEL mode: every submitted unit still runs, and
the failing unit surfaces as that unit's error (re-raised at `.get()`).
In SERIAL mode, however, `compare_checksums` is not wrapped in
try/except, so the exception propagates: granules before the failing
one are processed, the failing granule is neither re-downloaded nor
marked failed, and the remaining granules are not processed. -/
theorem C4_checksum_fetch_failure (pre post : List GranuleBehavior) (g : GranuleBehavior)
    (e : String) (hpre : ∀ b ∈ pre, (procStep b).isSome)
    (hg : g.checksum = .error e) :
    parallel_sync (pre ++ g :: post) =
      pre.map multiprocess_sync ++ .error e :: post.map multiprocess_sync ∧
    serial_sync (pre ++ g :: post) = (pre.filterMap procStep, some e) := by
  constructor
  · simp [parallel_sync, multiprocess_sync, hg]
  · rw [serial_sync_append pre (g :: post) hpre]
    simp [serial_sync, hg]

/-- C4 witness: with a healthy granule before and after a failing
checksum fetch, parallel mode still yields a result for all three units
(the failing one as an error), while serial mode stops after the first. -/
theorem C4_checksum_fetch_failure_witness :
    parallel_sync [okDown, failChk, okSkip] =
      [.ok (some "https://host/p/f1.h5 -->\n\t/data/p/f1.h5\n"),
       .error "XML download error: https://host/p/f3.h5.xml", .ok none] ∧
    serial_sync [okDown, failChk, okSkip] =
      ([GranStatus.downloaded "https://host/p/f1.h5 -->\n\t/data/p/f1.h5\n"],
       some "XML download error: https://host/p/f3.h5.xml") := by
  have h := C4_checksum_fetch_failure [okDown] [okSkip] failChk
    "XML download error: https://host/p/f3.h5.xml" (by decide) (by decide)
  exact ⟨h.1.trans (by decide), h.2.trans (by decide)⟩

/-- C4 counterexample: in serial mode a failing checksum-descriptor
fetch aborts the run — with 2 granules where granule 1's descriptor
fetch raises, the remaining granule is NOT processed (0 processed, not
1), refuting the claim that in both modes the remaining granules are
still processed. -/
theorem C4_counterexample :
    serial_sync [failChk, okDown] =
      ([], some "XML download error: https://host/p/f3.h5.xml") ∧
    (serial_sync [failChk, okDown]).1.length ≠ 1 := by
  decide

/-- Strip trailing `'/'` characters, the `head.rstrip('/')` of
`posixpath.split`. -/
def rstripSlash (l : List Char) : List Char :=
  (l.reverse.dropWhile (fun c => c == '/')).reverse

/-- Model of `posixpath.split` on the character list of a path: `tail`
is everything after the last `'/'`; `head` is everything up to and
including the last `'/'`, with trailing slashes stripped unless the
head is empty or consists only of slashes. -/
def psplitChars (cs : List Char) : List Char × List Char :=
  let rev := cs.reverse
  let tailRev := rev.takeWhile (fun c => c != '/')
  let headRev := rev.dropWhile (fun c => c != '/')
  let rawHead := headRev.reverse
  let head :=
    if rawHead.isEmpty || rawHead.all (fun c => c == '/') then rawHead
    else rstripSlash rawHead
  (head, tailRev.reverse)

/-- Model of `posixpath.split` (and of `os.path.split` on a POSIX
system) on strings. -/
def psplit (s : String) : String × String :=
  (String.mk (psplitChars s.data).1, String.mk (psplitChars s.data).2)

/-- Model of `os.path.dirname`, which is the head of the split. -/
def dirname (p : String) : String := (psplit p).1

/-- Argument of `get_hash(local, algorithm)`: either an open `BytesIO`
file object or a filesystem path. -/
inductive LocalSource where
  | fileObject (contents : List Nat)
  | path (p : String)

/-- Model of `get_hash(local, algorithm)`
(src/subsetting_tools/utilities.py, lines 36-66). The local filesystem
is the explicit map `fs` from paths to file contents (`none` for a
missing path, the `os.access(..., os.F_OK)` test); `md5v` and `sha1v`
model the hex digests of `hashlib.md5`/`hashlib.sha1` over the full
file bytes. A file object is hashed directly; an existing path is
hashed according to the algorithm, with any algorithm other than `MD5`
or `sha1` falling off the end of the function (Python returns None); a
missing path returns the empty string. The function never raises. -/
def get_hash (fs : String → Option (List Nat)) (md5v sha1v : List Nat → String) :
    LocalSource → String → Option String
  | .fileObject contents, algorithm =>
    if algorithm = "MD5" then some (md5v contents)
    else if algorithm = "sha1" then some (sha1v contents)
    else none
  | .path p, algorithm =>
    match fs p with
    | some contents =>
      if algorithm = "MD5" then some (md5v contents)
      else if algorithm = "sha1" then some (sha1v contents)
      else none
    | none => some ""

/-- A parsed checksum-descriptor document: the text values of its
`//DataFileContainer/Checksum` nodes (in lxml, text nodes are non-empty
strings). -/
structure XmlDoc where
  checksumTexts : List String
deriving DecidableEq

/-- Model of `compare_checksums(remote_xml, local_file, ...)`
(src/subsetting_tools/utilities.py, lines 272-314) with `build=False`
as at every call site of this program (the credential branch is out of
scope, spec section 1): fetch the remote XML (`fetch`), re-raising any
fetch failure as `Exception('XML download error: ...')`; unpack the
single `//DataFileContainer/Checksum/text()` value (the tuple unpacking
raises `ValueError` unless there is exactly one); compare it with
`get_hash(local_file)` under the default `MD5` algorithm. -/
def compare_checksums (fetch : String → Except String XmlDoc)
    (fs : String → Option (List Nat)) (md5v sha1v : List Nat → String)
    (remote_xml local_file : String) : Except String Bool :=
  match fetch remote_xml with
  | .error _ => .error ("XML download error: " ++ remote_xml)
  | .ok tree =>
    match tree.checksumTexts with
    | [remote_hash] =>
      .ok (get_hash fs md5v sha1v (.path local_file) "MD5" == some remote_hash)
    | _ => .error "ValueError"

/-- C5. Under the stated precondition (the descriptor fetch succeeds
and the document contains exactly one checksum text value, which as an
XML text node is non-empty), `compare_checksums` returns True iff the
local file is present and its MD5 content hash equals the declared
checksum; in particular absence of the local file yields False. -/
theorem C5_compare_checksums (fetch : String → Except String XmlDoc)
    (fs : String → Option (List Nat)) (md5v sha1v : List Nat → String)
    (remote_xml local_file : String) (doc : XmlDoc) (h : String)
    (hfetch : fetch remote_xml = .ok doc)
    (hdoc : doc.checksumTexts = [h])
    (hne : h ≠ "") :
    (compare_checksums fetch fs md5v sha1v remote_xml local_file = .ok true ↔
      ∃ contents, fs local_file = some contents ∧ md5v contents = h) ∧
    (fs local_file = none →
      compare_checksums fetch fs md5v sha1v remote_xml local_file = .ok false) := by
  have hcc : compare_checksums fetch fs md5v sha1v remote_xml local_file =
      .ok (get_hash fs md5v sha1v (.path local_file) "MD5" == some h) := by
    simp [compare_checksums, hfetch, hdoc]
  cases hfs : fs local_file with
  | none =>
    have hget : get_hash fs md5v sha1v (.path local_file) "MD5" = some "" := by
      simp [get_hash, hfs]
    refine ⟨⟨fun hh => ?_, fun hh => ?_⟩, fun _ => ?_⟩
    · exfalso
      rw [hcc, hget] at hh
      have := Except.ok.inj hh
      simp only [beq_iff_eq, Option.some.injEq] at this
      exact hne this.symm
    · exfalso
      obtain ⟨c, hc, _⟩ := hh
      exact Option.noConfusion hc
    · rw [hcc, hget]
      have : (some "" == some h) = false := by
        simp [Ne.symm hne]
      rw [this]
  | some contents =>
    have hget : get_hash fs md5v sha1v (.path local_file) "MD5" = some (md5v contents) := by
      simp [get_hash, hfs]
    refine ⟨⟨fun hh => ?_, fun hh => ?_⟩, fun hnone => ?_⟩
    · rw [hcc, hget] at hh
      have := Except.ok.inj hh
      simp only [beq_iff_eq, Option.some.injEq] at this
      exact ⟨contents, rfl, this⟩
    · obtain ⟨c, hc, hmd⟩ := hh
      injection hc with hc
      subst hc
      rw [hcc, hget, hmd]
      simp
    · exact Option.noConfusion hnone

/-- C5 witness: with a descriptor declaring hash `"abcd"` and a local
file present whose MD5 digest is `"abcd"`, the comparison returns True;
with the local file absent, it returns False. -/
theorem C5_compare_checksums_witness :
    compare_checksums (fun _ => .ok ⟨["abcd"]⟩) (fun _ => some [97])
      (fun _ => "abcd") (fun _ => "zz") "https://h/g.h5.xml" "/d/g.h5" = .ok true ∧
    compare_checksums (fun _ => .ok ⟨["abcd"]⟩) (fun _ => none)
      (fun _ => "abcd") (fun _ => "zz") "https://h/g.h5.xml" "/d/g.h5" = .ok false := by
  constructor
  · exact (C5_compare_checksums (fun _ => .ok ⟨["abcd"]⟩) (fun _ => some [97])
      (fun _ => "abcd") (fun _ => "zz") "https://h/g.h5.xml" "/d/g.h5" ⟨["abcd"]⟩ "abcd"
      rfl rfl (by decide)).1.mpr ⟨[97], rfl, rfl⟩
  · exact (C5_compare_checksums (fun _ => .ok ⟨["abcd"]⟩) (fun _ => none)
      (fun _ => "abcd") (fun _ => "zz") "https://h/g.h5.xml" "/d/g.h5" ⟨["abcd"]⟩ "abcd"
      rfl rfl (by decide)).2 rfl

/-- C10. `get_hash` on a path argument is total: a missing path returns
the empty string (for every algorithm, never raising); an existing path
returns the MD5 or sha1 hex digest of the full file bytes for those two
algorithm names and None for any other; consequently the hash of a
missing local file compares equal (under the `==` comparison that
`compare_checksums` performs) to a remote-declared checksum exactly
when that checksum is the empty string. -/
theorem C10_get_hash (fs : String → Option (List Nat)) (md5v sha1v : List Nat → String)
    (p : String) (algorithm : String) :
    (fs p = none → get_hash fs md5v sha1v (.path p) algorithm = some "") ∧
    (∀ contents, fs p = some contents →
      (algorithm = "MD5" →
        get_hash fs md5v sha1v (.path p) algorithm = some (md5v contents)) ∧
      (algorithm = "sha1" →
        get_hash fs md5v sha1v (.path p) algorithm = some (sha1v contents)) ∧
      (algorithm ≠ "MD5" → algorithm ≠ "sha1" →
        get_hash fs md5v sha1v (.path p) algorithm = none)) ∧
    (∀ remote_hash : String, fs p = none →
      ((get_hash fs md5v sha1v (.path p) "MD5" == some remote_hash) = true ↔
        remote_hash = "")) := by
  refine ⟨fun hfs => ?_, fun contents hfs => ⟨fun h1 => ?_, fun h2 => ?_, fun h1 h2 => ?_⟩,
    fun remote_hash hfs => ?_⟩
  · simp [get_hash, hfs]
  · simp [get_hash, hfs, h1]
  · by_cases hmd : algorithm = "MD5"
    · rw [h2] at hmd
      exact absurd hmd (by decide)
    · simp [get_hash, hfs, hmd, h2]
  · simp [get_hash, hfs, h1, h2]
  · have hget : get_hash fs md5v sha1v (.path p) "MD5" = some "" := by
      simp [get_hash, hfs]
    rw [hget]
    simp only [beq_iff_eq, Option.some.injEq]
    exact eq_comm

/-- C10 witness: a missing path yields the empty-string hash under MD5
(and compares equal only to an empty declared checksum), and an
existing path with an unknown algorithm yields None. -/
theorem C10_get_hash_witness :
    get_hash (fun _ => none) (fun _ => "m") (fun _ => "s")
      (.path "/d/f.h5") "MD5" = some "" ∧
    get_hash (fun _ => some [1, 2]) (fun _ => "m") (fun _ => "s")
      (.path "/d/f.h5") "crc32" = none ∧
    ¬ ((get_hash (fun _ => none) (fun _ => "m") (fun _ => "s")
      (.path "/d/f.h5") "MD5" == some "abcd") = true) := by
  refine ⟨(C10_get_hash (fun _ => none) (fun _ => "m") (fun _ => "s") "/d/f.h5" "MD5").1 rfl,
    ((C10_get_hash (fun _ => some [1, 2]) (fun _ => "m") (fun _ => "s") "/d/f.h5" "crc32").2.1
      [1, 2] rfl).2.2 (by decide) (by decide),
    fun hh => ?_⟩
  have := ((C10_get_hash (fun _ => none) (fun _ => "m") (fun _ => "s") "/d/f.h5" "MD5").2.2
    "abcd" rfl).mp hh
  exact absurd this (by decide)

/-- Contents and permission mode of one local file. -/
structure FileData where
  contents : List Nat
  mode : Nat
deriving DecidableEq

/-- The local filesystem visible to the download executor: the
directories that exist (with the mode they were created with) and the
regular files (path, contents, mode). -/
structure FS where
  dirs : List (String × Nat)
  files : List (String × FileData)
deriving DecidableEq

/-- Insert or overwrite the association for key `k` (the `open(local_file,
'wb')` truncating write). -/
def setAssoc {α : Type} : String → α → List (String × α) → List (String × α)
  | k, v, [] => [(k, v)]
  | k, v, (k', v') :: rest => if k' = k then (k, v) :: rest else (k', v') :: setAssoc k v rest

/-- Split a list into consecutive chunks of `n` elements (the last
chunk possibly shorter), with explicit fuel for structural recursion;
fuel at least the list length is sufficient since each step consumes at
least one element when `0 < n`. Models the successive `read(chunk)`
calls of `shutil.copyfileobj`. -/
def chunksOfCore {α : Type} (n : Nat) : Nat → List α → List (List α)
  | 0, _ => []
  | fuel + 1, l =>
    if l.isEmpty then []
    else if n = 0 then [l]
    else l.take n :: chunksOfCore n fuel (l.drop n)

/-- Chunk decomposition of a list with chunk size `n`. -/
def chunksOf {α : Type} (n : Nat) (l : List α) : List (List α) :=
  chunksOfCore n l.length l

/-- Model of the `os.makedirs(os.path.dirname(local_file), mode)` call
guarded by `os.access(..., os.F_OK)`: create the (immediate) parent
directory with the given mode when missing. The recursive creation of
missing grandparents is abstracted to the immediate parent, the only
part the claims mention. -/
def ensureDir (parent : String) (mode : Nat) (fs : FS) : FS :=
  if (fs.dirs.lookup parent).isSome then fs
  else { fs with dirs := fs.dirs ++ [(parent, mode)] }

/-- Model of `from_lpdaac(remote_file, local_file, ...)` with
`build=False` as at every call site of this program (the netrc/opener
branch acquires credentials, out of scope per spec section 1)
(src/subsetting_tools/utilities.py, lines 211-269). The parent
directory is created BEFORE the transfer is attempted; the request and
its submission (`net`) may fail, which raises
`Exception('Download error from ...')` without touching any file; on
success the body is written to the local path in chunks of `chunk`
bytes (`shutil.copyfileobj`), the file's mode is set (`os.chmod`), and
the human-readable transfer description is returned. The pair returned
is (result-or-exception, filesystem after the call). -/
def from_lpdaac (net : String → Except String (List Nat))
    (remote_file local_file : String) (chunk mode : Nat) (fs : FS) :
    Except String String × FS :=
  let fs1 := ensureDir (dirname local_file) mode fs
  match net remote_file with
  | .error _ => (.error ("Download error from " ++ remote_file), fs1)
  | .ok body =>
    let output := remote_file ++ " -->\n\t" ++ local_file ++ "\n"
    let written := (chunksOf chunk body).flatten
    (.ok output, { fs1 with files := setAssoc local_file ⟨written, mode⟩ fs1.files })

lemma chunksOfCore_flatten {α : Type} (n : Nat) (hn : 0 < n) :
    ∀ (fuel : Nat) (l : List α), l.length ≤ fuel → (chunksOfCore n fuel l).flatten = l := by
  intro fuel
  induction fuel with
  | zero =>
    intro l hl
    have : l = [] := List.eq_nil_of_length_eq_zero (by omega)
    subst this
    simp [chunksOfCore]
  | succ fuel ih =>
    intro l hl
    by_cases he : l.isEmpty
    · have : l = [] := by simpa using he
      subst this
      simp [chunksOfCore]
    · have hn0 : ¬ n = 0 := by omega
      have hlen : 1 ≤ l.length := by
        have : l ≠ [] := by simpa using he
        exact List.length_pos.mpr this
      simp only [chunksOfCore, he, hn0, if_neg, Bool.false_eq_true, if_false,
        List.flatten_cons]
      rw [ih (l.drop n) (by simp; omega)]
      exact List.take_append_drop n l

lemma chunksOf_flatten {α : Type} (n : Nat) (hn : 0 < n) (l : List α) :
    (chunksOf n l).flatten = l :=
  chunksOfCore_flatten n hn l.length l le_rfl

lemma setAssoc_lookup {α : Type} (k : String) (v : α) :
    ∀ m : List (String × α), (setAssoc k v m).lookup k = some v := by
  intro m
  induction m with
  | nil => simp [setAssoc, List.lookup]
  | cons kv rest ih =>
    obtain ⟨k', v'⟩ := kv
    by_cases h : k' = k
    · simp [setAssoc, h, List.lookup]
    · have hbeq : (k == k') = false := beq_eq_false_iff_ne.mpr (Ne.symm h)
      simp [setAssoc, h, List.lookup, hbeq, ih]

/-- C8 (amended). `from_lpdaac` raises exactly when creating and
submitting the HTTP request fails; on that failure the local FILE is
neither created nor overwritten, but the state is not entirely
unchanged: the missing parent directory has already been created (with
the given mode) before the transfer was attempted. On success it
ensures the parent directory, writes the response body verbatim to the
local path in fixed-size chunks, sets the file's permission mode, and
returns the human-readable transfer description. -/
theorem C8_from_lpdaac (net : String → Except String (List Nat))
    (remote_file local_file : String) (chunk mode : Nat) (fs : FS) (hchunk : 0 < chunk) :
    (∀ e, net remote_file = .error e →
      from_lpdaac net remote_file local_file chunk mode fs =
        (.error ("Download error from " ++ remote_file),
         ensureDir (dirname local_file) mode fs) ∧
      (ensureDir (dirname local_file) mode fs).files = fs.files) ∧
    (∀ body, net remote_file = .ok body →
      (from_lpdaac net remote_file local_file chunk mode fs).1 =
        .ok (remote_file ++ " -->\n\t" ++ local_file ++ "\n") ∧
      (from_lpdaac net remote_file local_file chunk mode fs).2.files.lookup local_file =
        some ⟨body, mode⟩ ∧
      (from_lpdaac net remote_file local_file chunk mode fs).2.dirs =
        (ensureDir (dirname local_file) mode fs).dirs) := by
  constructor
  · intro e he
    constructor
    · simp [from_lpdaac, he]
    · unfold ensureDir
      split
      · rfl
      · rfl
  · intro body hb
    refine ⟨?_, ?_, ?_⟩
    · simp [from_lpdaac, hb]
    · simp only [from_lpdaac, hb]
      rw [chunksOf_flatten chunk hchunk body]
      exact setAssoc_lookup local_file (⟨body, mode⟩ : FileData) _
    · simp [from_lpdaac, hb]

/-- A network that refuses every request. -/
def failNet : String → Except String (List Nat) := fun _ => .error "connection refused"

/-- C8 counterexample: starting from an empty filesystem, a failed
download of `https://h/a/b.h5` into `/data/a/b.h5` leaves the
filesystem CHANGED — the parent directory `/data/a` was created before
the request was attempted — refuting the claim's parenthetical that the
state is unchanged on error (the local file itself is indeed absent). -/
theorem C8_counterexample :
    (from_lpdaac failNet "https://h/a/b.h5" "/data/a/b.h5" 16384 509 ⟨[], []⟩).1 =
      .error "Download error from https://h/a/b.h5" ∧
    (from_lpdaac failNet "https://h/a/b.h5" "/data/a/b.h5" 16384 509 ⟨[], []⟩).2 ≠
      (⟨[], []⟩ : FS) ∧
    (from_lpdaac failNet "https://h/a/b.h5" "/data/a/b.h5" 16384 509
      ⟨[], []⟩).2.files.lookup "/data/a/b.h5" = none := by
  decide

/-- C8 witness: on a successful transfer of the 3-byte body
[10, 20, 30] with chunk size 2, the file holds the body verbatim with
the requested mode, and the transfer description is returned. -/
theorem C8_from_lpdaac_witness :
    (from_lpdaac (fun _ => .ok [10, 20, 30]) "https://h/a/b.h5" "/data/a/b.h5" 2 509
      ⟨[], []⟩).1 = .ok "https://h/a/b.h5 -->\n\t/data/a/b.h5\n" ∧
    (from_lpdaac (fun _ => .ok [10, 20, 30]) "https://h/a/b.h5" "/data/a/b.h5" 2 509
      ⟨[], []⟩).2.files.lookup "/data/a/b.h5" = some ⟨[10, 20, 30], 509⟩ := by
  have h := (C8_from_lpdaac (fun _ => .ok [10, 20, 30]) "https://h/a/b.h5" "/data/a/b.h5"
    2 509 ⟨[], []⟩ (by decide)).2 [10, 20, 30] rfl
  exact ⟨h.1, h.2.1⟩

/-- Model of `url_split(s)` (src/subsetting_tools/utilities.py, lines
69-82), with explicit fuel standing for Python's recursion limit (the
fuel `s.length` used by `url_split` below is shown sufficient for every
well-formed URL in the lemmas; a fuel-exhausted call returns its
argument as a single segment, which the lemmas never reach): split off
the last path component with `posixpath.split`; a head of `http:` or
`https:` means the remaining string is the scheme-and-host prefix,
returned whole; an empty or root head ends the recursion with the tail;
otherwise recurse on the head and append the tail. -/
def url_split_fuel : Nat → String → List String
  | 0, s => [s]
  | fuel + 1, s =>
    if (psplit s).1 = "http:" ∨ (psplit s).1 = "https:" then [s]
    else if (psplit s).1 = "" ∨ (psplit s).1 = "/" then [(psplit s).2]
    else url_split_fuel fuel (psplit s).1 ++ [(psplit s).2]

/-- The recursive URL splitter of the program. -/
def url_split (s : String) : List String := url_split_fuel s.length s

/-- Model of the local destination computed by both sync branches of
`lpdaac_subset_gedi` (src/lpdaac_subset_gedi.py, lines 227-230 serial
and 252-253 parallel, identical expressions):
`os.path.join(DIRECTORY, args[-2], args[-1])` with
`args = url_split(granule)`; `os.path.join` on relative components is
separator joining. -/
def localDest (directory granule : String) : String :=
  directory ++ "/" ++ (url_split granule).getD ((url_split granule).length - 2) "" ++
    "/" ++ (url_split granule).getD ((url_split granule).length - 1) ""

/-- Left-to-right join of `base` with `/`-prefixed segments: the shape
of the URLs the claim quantifies over. -/
def urlStringAux : String → List String → String
  | base, [] => base
  | base, s :: rest => urlStringAux (base ++ "/" ++ s) rest

/-- A URL `https://host/seg1/.../segn`. -/
def urlString (host : String) (segs : List String) : String :=
  urlStringAux ("https://" ++ host) segs

lemma takeWhile_dropWhile_append {α : Type} (p : α → Bool) :
    ∀ (l1 : List α) (x : α) (l2 : List α), (∀ a ∈ l1, p a = true) → p x = false →
      (l1 ++ x :: l2).takeWhile p = l1 ∧ (l1 ++ x :: l2).dropWhile p = x :: l2 := by
  intro l1
  induction l1 with
  | nil =>
    intro x l2 _ hx
    simp [List.takeWhile_cons, List.dropWhile_cons, hx]
  | cons a l1 ih =>
    intro x l2 h1 hx
    have ha : p a = true := h1 a (by simp)
    have hrest := ih x l2 (fun b hb => h1 b (by simp [hb])) hx
    simp [List.takeWhile_cons, List.dropWhile_cons, ha, hrest.1, hrest.2]

lemma psplitChars_append (xs ys : List Char) (hys : ∀ c ∈ ys, (c != '/') = true) :
    psplitChars (xs ++ '/' :: ys) =
      (if (xs ++ ['/']).isEmpty || (xs ++ ['/']).all (fun c => c == '/') then xs ++ ['/']
       else rstripSlash (xs ++ ['/']), ys) := by
  have hrev : (xs ++ '/' :: ys).reverse = ys.reverse ++ '/' :: xs.reverse := by
    simp
  have hys' : ∀ a ∈ ys.reverse, (a != '/') = true :=
    fun a ha => hys a (List.mem_reverse.mp ha)
  have hslash : (('/' : Char) != '/') = false := by decide
  have htd := takeWhile_dropWhile_append (fun c => c != '/') ys.reverse '/' xs.reverse hys' hslash
  have hraw : ('/' :: xs.reverse).reverse = xs ++ ['/'] := by
    simp
  unfold psplitChars
  rw [hrev]
  dsimp only
  rw [htd.1, htd.2, hraw]
  simp

lemma psplitChars_spec (xs ys : List Char) (c : Char)
    (hys : ∀ a ∈ ys, (a != '/') = true)
    (hlast : xs.getLast? = some c) (hc : (c == '/') = false) :
    psplitChars (xs ++ '/' :: ys) = (xs, ys) := by
  have hmem : c ∈ xs := by
    obtain ⟨h, rfl⟩ := List.mem_getLast?_eq_getLast (by simpa using hlast)
    exact List.getLast_mem h
  have hne : xs ≠ [] := by
    intro h0
    rw [h0] at hmem
    cases hmem
  have hnotall : ((xs ++ ['/']).all (fun a => a == '/')) = false := by
    rw [List.all_eq_false]
    exact ⟨c, by simp [hmem], by simp [hc]⟩
  have hnotempty : ((xs ++ ['/']).isEmpty) = false := by
    simp
  rw [psplitChars_append xs ys hys, hnotempty, hnotall]
  simp only [Bool.false_or, Bool.or_self, if_false, Bool.false_eq_true]
  have hrs : rstripSlash (xs ++ ['/']) = xs := by
    unfold rstripSlash
    have h1 : (xs ++ ['/']).reverse = '/' :: xs.reverse := by simp
    rw [h1, List.dropWhile_cons]
    simp only [beq_self_eq_true, if_true]
    have hhead : xs.reverse.head? = some c := by
      rw [List.head?_reverse]
      exact hlast
    cases hxr : xs.reverse with
    | nil => rw [hxr] at hhead; cases hhead
    | cons a t =>
      rw [hxr] at hhead
      injection hhead with hhead
      subst hhead
      rw [List.dropWhile_cons]
      rw [hc]
      simp only [Bool.false_eq_true, if_false]
      rw [← hxr, List.reverse_reverse]
  rw [hrs]

lemma psplit_append (a b : String) (c : Char)
    (hb : ∀ ch ∈ b.data, (ch != '/') = true)
    (hlast : a.data.getLast? = some c) (hc : (c == '/') = false) :
    psplit (a ++ "/" ++ b) = (a, b) := by
  have hdata : (a ++ "/" ++ b).data = a.data ++ '/' :: b.data := by
    rw [String.data_append, String.data_append]
    show (a.data ++ ['/']) ++ b.data = a.data ++ '/' :: b.data
    simp
  unfold psplit
  rw [hdata, psplitChars_spec a.data b.data c hb hlast hc]

lemma psplit_scheme_host (host : String) (_hh : host.data ≠ [])
    (hhost : ∀ c ∈ host.data, (c != '/') = true) :
    psplit ("https://" ++ host) = ("https:", host) := by
  have hdata : ("https://" ++ host).data = ['h','t','t','p','s',':','/'] ++ '/' :: host.data := by
    rw [String.data_append]
    rfl
  unfold psplit
  rw [hdata, psplitChars_append ['h','t','t','p','s',':','/'] host.data hhost]
  have h1 : ((['h','t','t','p','s',':','/'] ++ ['/']).isEmpty ||
      (['h','t','t','p','s',':','/'] ++ ['/']).all (fun c => c == '/')) = false := by decide
  rw [h1]
  have h2 : rstripSlash (['h','t','t','p','s',':','/'] ++ ['/']) = "https:".data := by decide
  simp only [Bool.false_eq_true, if_false]
  rw [h2]

lemma urlStringAux_append :
    ∀ (init : List String) (base lastSeg : String),
    urlStringAux base (init ++ [lastSeg]) = urlStringAux base init ++ "/" ++ lastSeg := by
  intro init
  induction init with
  | nil => intro base l; rfl
  | cons s rest ih => intro base l; exact ih (base ++ "/" ++ s) l

lemma urlStringAux_ends :
    ∀ (segs : List String) (base : String),
    (∃ c, base.data.getLast? = some c ∧ (c != '/') = true) →
    (∀ s ∈ segs, s.data ≠ [] ∧ ∀ ch ∈ s.data, (ch != '/') = true) →
    ∃ c, (urlStringAux base segs).data.getLast? = some c ∧ (c != '/') = true := by
  intro segs
  induction segs with
  | nil => intro base hbase _; exact hbase
  | cons s rest ih =>
    intro base hbase hsegs
    apply ih (base ++ "/" ++ s)
    · obtain ⟨hne, hch⟩ := hsegs s (by simp)
      refine ⟨s.data.getLast hne, ?_, ?_⟩
      · have hdata : (base ++ "/" ++ s).data = (base.data ++ ['/']) ++ s.data := by
          rw [String.data_append, String.data_append]
        rw [hdata, List.getLast?_append_of_ne_nil _ hne,
          List.getLast?_eq_getLast_of_ne_nil hne]
      · exact hch _ (List.getLast_mem hne)
    · exact fun t ht => hsegs t (by simp [ht])

lemma urlStringAux_length :
    ∀ (segs : List String) (base : String), (∀ s ∈ segs, s.data ≠ []) →
    base.length + segs.length ≤ (urlStringAux base segs).length := by
  intro segs
  induction segs with
  | nil => intro base _; simp [urlStringAux]
  | cons s rest ih =>
    intro base hs
    have h1 := ih (base ++ "/" ++ s) (fun t ht => hs t (by simp [ht]))
    have hslen : 1 ≤ s.length :=
      List.length_pos.mpr (hs s (by simp))
    rw [String.length_append, String.length_append] at h1
    have hslash : ("/" : String).length = 1 := rfl
    rw [hslash] at h1
    show base.length + (s :: rest).length ≤ (urlStringAux (base ++ "/" ++ s) rest).length
    rw [List.length_cons]
    omega

lemma url_split_fuel_urlString (host : String) (hh : host.data ≠ [])
    (hhost : ∀ c ∈ host.data, (c != '/') = true) :
    ∀ (segs : List String) (fuel : Nat), segs.length < fuel →
    (∀ s ∈ segs, s.data ≠ [] ∧ ∀ ch ∈ s.data, (ch != '/') = true) →
    url_split_fuel fuel (urlString host segs) = ("https://" ++ host) :: segs := by
  intro segs
  induction segs using List.reverseRecOn with
  | nil =>
    intro fuel hfuel _
    obtain ⟨f, rfl⟩ : ∃ f, fuel = f + 1 := ⟨fuel - 1, by omega⟩
    show url_split_fuel (f + 1) ("https://" ++ host) = [("https://" ++ host)]
    unfold url_split_fuel
    rw [psplit_scheme_host host hh hhost]
    dsimp only
    rw [if_pos (Or.inr rfl)]
  | append_singleton init lastSeg ih =>
    intro fuel hfuel hsegs
    obtain ⟨f, rfl⟩ : ∃ f, fuel = f + 1 := ⟨fuel - 1, by omega⟩
    have hurl : urlString host (init ++ [lastSeg]) = urlString host init ++ "/" ++ lastSeg :=
      urlStringAux_append init ("https://" ++ host) lastSeg
    rw [hurl]
    have hbase : ∃ c, ("https://" ++ host).data.getLast? = some c ∧ (c != '/') = true := by
      refine ⟨host.data.getLast hh, ?_, ?_⟩
      · rw [String.data_append, List.getLast?_append_of_ne_nil _ hh,
          List.getLast?_eq_getLast_of_ne_nil hh]
      · exact hhost _ (List.getLast_mem hh)
    obtain ⟨c, hcl, hcs⟩ := urlStringAux_ends init ("https://" ++ host) hbase
      (fun s hs => hsegs s (by simp [hs]))
    have hps : psplit (urlString host init ++ "/" ++ lastSeg) = (urlString host init, lastSeg) :=
      psplit_append _ _ c (hsegs lastSeg (by simp)).2 hcl (by simpa using hcs)
    have hlen9 : 9 ≤ (urlString host init).length := by
      have h1 := urlStringAux_length init ("https://" ++ host)
        (fun s hs => (hsegs s (by simp [hs])).1)
      have h2 : 1 ≤ host.length := List.length_pos.mpr hh
      rw [String.length_append] at h1
      have h8 : ("https://" : String).length = 8 := rfl
      rw [h8] at h1
      have : (urlString host init).length = (urlStringAux ("https://" ++ host) init).length := rfl
      omega
    unfold url_split_fuel
    rw [hps]
    dsimp only
    have hne1 : ¬ (urlString host init = "http:" ∨ urlString host init = "https:") := by
      rintro (h | h)
      · have := congrArg String.length h
        have h5 : ("http:" : String).length = 5 := rfl
        rw [h5] at this
        omega
      · have := congrArg String.length h
        have h6 : ("https:" : String).length = 6 := rfl
        rw [h6] at this
        omega
    rw [if_neg hne1]
    have hne2 : ¬ (urlString host init = "" ∨ urlString host init = "/") := by
      rintro (h | h)
      · have := congrArg String.length h
        have h0 : ("" : String).length = 0 := rfl
        rw [h0] at this
        omega
      · have := congrArg String.length h
        have hone : ("/" : String).length = 1 := rfl
        rw [hone] at this
        omega
    rw [if_neg hne2]
    have hflen : init.length < f := by
      have : (init ++ [lastSeg]).length = init.length + 1 := by simp
      omega
    rw [ih f hflen (fun s hs => hsegs s (by simp [hs]))]
    rfl

/-- C9. For every remote granule URL of the form
`https://host/seg1/.../segn` with a non-empty slash-free host and
non-empty slash-free path segments, `url_split` returns the
scheme-and-host prefix followed by the path segments in order; hence
with at least two path segments, `args[-2]` and `args[-1]` are exactly
the URL's last two segments, and the local destination computed by both
sync branches is the base directory joined with the penultimate segment
and the final segment. -/
theorem C9_url_split_dest (directory host : String) (segs : List String)
    (hh : host.data ≠ []) (hhost : ∀ c ∈ host.data, (c != '/') = true)
    (hsegs : ∀ s ∈ segs, s.data ≠ [] ∧ ∀ ch ∈ s.data, (ch != '/') = true)
    (hlen : 2 ≤ segs.length) :
    url_split (urlString host segs) = ("https://" ++ host) :: segs ∧
    localDest directory (urlString host segs) =
      directory ++ "/" ++ segs.getD (segs.length - 2) "" ++ "/" ++
        segs.getD (segs.length - 1) "" := by
  have hsplit : url_split (urlString host segs) = ("https://" ++ host) :: segs := by
    apply url_split_fuel_urlString host hh hhost segs (urlString host segs).length ?_ hsegs
    have h1 := urlStringAux_length segs ("https://" ++ host) (fun s hs => (hsegs s hs).1)
    have h2 : 1 ≤ host.length := List.length_pos.mpr hh
    rw [String.length_append] at h1
    have h8 : ("https://" : String).length = 8 := rfl
    rw [h8] at h1
    have : (urlString host segs).length = (urlStringAux ("https://" ++ host) segs).length := rfl
    omega
  refine ⟨hsplit, ?_⟩
  unfold localDest
  rw [hsplit]
  obtain ⟨m, hm⟩ : ∃ m, segs.length = m + 2 := ⟨segs.length - 2, by omega⟩
  have hl : (("https://" ++ host) :: segs).length = m + 3 := by
    rw [List.length_cons, hm]
  rw [hl, hm]
  have e1 : m + 3 - 2 = m + 1 := by omega
  have e2 : m + 3 - 1 = m + 2 := by omega
  have e3 : m + 2 - 2 = m := by omega
  have e4 : m + 2 - 1 = m + 1 := by omega
  rw [e1, e2, e3, e4, List.getD_cons_succ, List.getD_cons_succ]

/-- C9 witness: the GEDI granule URL used by the repository's test
suite splits into its scheme-and-host prefix followed by the four path
segments in order, and the computed local destination mirrors the last
two segments under the base directory. -/
theorem C9_url_split_dest_witness :
    url_split "https://e4ftl01.cr.usgs.gov/GEDI/GEDI02_B.001/2019.04.18/G02B.h5"
      = ["https://e4ftl01.cr.usgs.gov", "GEDI", "GEDI02_B.001", "2019.04.18", "G02B.h5"] ∧
    localDest "/data" "https://e4ftl01.cr.usgs.gov/GEDI/GEDI02_B.001/2019.04.18/G02B.h5"
      = "/data/2019.04.18/G02B.h5" := by
  have h := C9_url_split_dest "/data" "e4ftl01.cr.usgs.gov"
    ["GEDI", "GEDI02_B.001", "2019.04.18", "G02B.h5"]
    (by decide) (by decide) (by decide) (by decide)
  have e1 : ("https://e4ftl01.cr.usgs.gov/GEDI/GEDI02_B.001/2019.04.18/G02B.h5" : String)
      = urlString "e4ftl01.cr.usgs.gov" ["GEDI", "GEDI02_B.001", "2019.04.18", "G02B.h5"] := by
    decide
  constructor
  · rw [e1]
    exact h.1.trans (by decide)
  · rw [e1]
    exact h.2.trans (by decide)
